import Mathlib

/-!
Verification development for the egokoro-kun drawing-and-guessing game.

The definitions below are a shallow embedding of the session / turn-rotation
logic of `GameManager` (src/src/utils/GameManager.ts and its Firebase variant):
each method that reads a session from the store, mutates it and writes it back
is modelled as a pure function from the session (plus the method's arguments)
to the resulting session and return value.  Randomness (`Math.random()`) is
modelled by an explicit choice parameter `r : Nat`; a JavaScript run with a
given random draw corresponds to some value of `r`.  The topic table
(`topics.json`, keyed by theme name) is passed in as a function
`String → Option (List TopicValue)`, matching the `(topicsData as any)[theme]`
lookup that may be `undefined`.  A JavaScript crash (member access on
`undefined`) is modelled by returning `none`.
-/

namespace Egokoro

/-! ### Data model (src/src/types/index.ts) -/

structure TopicValue where
  displayName : String
  answerNames : List String
  deriving Repr, DecidableEq

inductive GameState where
  | waiting
  | playing
  | finished
  deriving Repr, DecidableEq

structure Player where
  id : String
  name : String
  score : Nat
  isReady : Bool
  isHost : Bool
  deriving Repr, DecidableEq

structure GameSettings where
  maxRounds : Nat
  correctAnswerPoints : Nat
  drawerPoints : Nat
  selectedThemes : List String
  timeLimit : Nat
  maxPlayers : Nat
  deriving Repr, DecidableEq

structure GameSession where
  id : String
  name : String
  password : Option String
  players : List Player
  currentDrawer : Option String
  currentTopic : Option TopicValue
  gameState : GameState
  settings : GameSettings
  round : Nat
  turn : Nat
  usedDrawers : List String
  deriving Repr, DecidableEq

/-! ### String primitives used by `checkAnswer`

`jsToLower` models `String.prototype.toLowerCase` (simple per-character case
mapping; ASCII letters are lowered, kana and other characters unchanged).
`jsTrim` models `String.prototype.trim` (strip leading and trailing
whitespace).  `jsIncludes hay needle` models `hay.includes(needle)`
(substring containment). -/

def isJsWhitespace (c : Char) : Bool :=
  c == ' ' || c == '\t' || c == '\n' || c == '\r' ||
    c == Char.ofNat 11 || c == Char.ofNat 12

def jsToLower (v : String) : String :=
  String.mk (v.data.map Char.toLower)

def jsTrimList (l : List Char) : List Char :=
  ((l.dropWhile isJsWhitespace).reverse.dropWhile isJsWhitespace).reverse

def jsTrim (v : String) : String :=
  String.mk (jsTrimList v.data)

def isPrefixList : List Char → List Char → Bool
  | [], _ => true
  | _ :: _, [] => false
  | a :: as, b :: bs => a == b && isPrefixList as bs

def isSubstrList (needle : List Char) : List Char → Bool
  | [] => isPrefixList needle []
  | c :: rest => isPrefixList needle (c :: rest) || isSubstrList needle rest

def jsIncludes (hay needle : String) : Bool :=
  isSubstrList needle.data hay.data

/-! ### Roster helpers

`updateFirst` models `players.find(p => p.id === pid)` followed by an in-place
mutation of the found object: only the first player with a matching id is
updated.  `addScore` is the `player.score += pts` mutation. -/

def updateFirst (pid : String) (f : Player → Player) : List Player → List Player
  | [] => []
  | p :: rest => if p.id == pid then f p :: rest else p :: updateFirst pid f rest

def addScore (pid : String) (pts : Nat) (ps : List Player) : List Player :=
  updateFirst pid (fun p => { p with score := p.score + pts }) ps

/-! ### GameManager.endGame -/

def endGame (s : GameSession) : GameSession :=
  { s with gameState := GameState.finished,
           players := s.players.map (fun p => { p with isReady := false }) }

/-! ### GameManager.selectNextDrawer

`availableDrawers = players.filter(p => !usedDrawers.includes(p.id))`.
If empty: clear `usedDrawers`, increment `round`; if `round > maxRounds` the
game ends.  Otherwise the code falls through and indexes the (possibly stale,
possibly empty) `availableDrawers` array at `Math.floor(Math.random()*len)`:
`drawerIndex` is that index (0 when the array is empty, as in JavaScript),
and an out-of-bounds access — `availableDrawers[0]` on an empty array, whose
`.id` access throws a TypeError — is modelled as `none`. -/

def drawerIndex (r len : Nat) : Nat :=
  if len = 0 then 0 else r % len

def pickDrawer (available : List Player) (r : Nat) (s : GameSession) :
    Option GameSession :=
  (available.get? (drawerIndex r available.length)).map
    (fun d => { s with currentDrawer := some d.id,
                       usedDrawers := s.usedDrawers ++ [d.id] })

def availableDrawers (s : GameSession) : List Player :=
  s.players.filter (fun p => !(s.usedDrawers.contains p.id))

/-- The rollover mutation: `usedDrawers = []; round++`. -/
def rollRound (s : GameSession) : GameSession :=
  { s with usedDrawers := ([] : List String), round := s.round + 1 }

def selectNextDrawer (r : Nat) (s : GameSession) : Option GameSession :=
  if (availableDrawers s).length = 0 then
    if s.settings.maxRounds < s.round + 1 then
      some (endGame (rollRound s))
    else
      pickDrawer (availableDrawers s) r (rollRound s)
  else
    pickDrawer (availableDrawers s) r s

/-! ### GameManager.selectRandomTopic -/

def collectTopics (topicsData : String → Option (List TopicValue))
    (themes : List String) : List TopicValue :=
  themes.foldl (fun acc theme =>
    match topicsData theme with
    | some ts => acc ++ ts
    | none => acc) []

def selectRandomTopic (topicsData : String → Option (List TopicValue))
    (r : Nat) (s : GameSession) : GameSession :=
  let availableTopics := collectTopics topicsData s.settings.selectedThemes
  if availableTopics.length = 0 then s
  else
    match availableTopics.get? (r % availableTopics.length) with
    | some t => { s with currentTopic := some t }
    | none => s

/-! ### GameManager.checkAnswer

The guess is normalized by `toLowerCase().trim()`; each accepted answer name
is normalized by `toLowerCase()`; the guess is correct iff for some accepted
name either normalized string contains the other.  Note the source checks
only that `currentTopic` is set — it never inspects `gameState`. -/

def answerIsCorrect (topic : TopicValue) (answer : String) : Bool :=
  let normalizedAnswer := jsTrim (jsToLower answer)
  topic.answerNames.any (fun correctAnswer =>
    jsIncludes (jsToLower correctAnswer) normalizedAnswer ||
    jsIncludes normalizedAnswer (jsToLower correctAnswer))

structure CheckResult where
  isCorrect : Bool
  correctAnswer : Option String
  deriving Repr, DecidableEq

/-- `if (drawer) drawer.score += drawerPoints`: the drawer is looked up by
`currentDrawer`, and nothing happens when `currentDrawer` is unset (or names
no player). -/
def addDrawerScore : Option String → Nat → List Player → List Player
  | some did, pts, ps => addScore did pts ps
  | none, _, ps => ps

/-- The score mutations of a correct answer: the guesser (if found) gains
`correctAnswerPoints`, then the current drawer (if found) gains
`drawerPoints`. -/
def scoreCorrect (s : GameSession) (playerId : String) : List Player :=
  addDrawerScore s.currentDrawer s.settings.drawerPoints
    (addScore playerId s.settings.correctAnswerPoints s.players)

/-- `checkAnswer` once `currentTopic` is known to be set. -/
def checkAnswerTopic (s : GameSession) (playerId answer : String)
    (topic : TopicValue) : CheckResult × GameSession :=
  if answerIsCorrect topic answer then
    (⟨true, topic.answerNames.head?⟩, { s with players := scoreCorrect s playerId })
  else
    (⟨false, none⟩, s)

def checkAnswer (s : GameSession) (playerId answer : String) :
    CheckResult × GameSession :=
  match s.currentTopic with
  | none => (⟨false, none⟩, s)
  | some topic => checkAnswerTopic s playerId answer topic

/-! ### GameManager.toggleReady -/

def toggleReady (s : GameSession) (playerId : String) : Bool × GameSession :=
  match s.players.find? (fun p => p.id == playerId) with
  | none => (false, s)
  | some _ =>
    let ps := updateFirst playerId (fun p => { p with isReady := !p.isReady }) s.players
    (true, { s with players := ps })

/-! ### GameManager.startGame -/

/-- The state reset performed by `startGame` just before drawer selection:
`gameState='playing'; round=1; turn=1; usedDrawers=[]`. -/
def resetForStart (s : GameSession) : GameSession :=
  { s with gameState := GameState.playing, round := 1, turn := 1,
           usedDrawers := ([] : List String) }

def startGame (topicsData : String → Option (List TopicValue)) (rD rT : Nat)
    (s : GameSession) (hostId : String) : Option (Bool × GameSession) :=
  match s.players.find? (fun p => p.id == hostId) with
  | none => some (false, s)
  | some host =>
    if host.isHost = false then some (false, s)
    else if s.players.all (fun p => p.isReady) = false ∨ s.players.length < 2 then
      some (false, s)
    else
      match selectNextDrawer rD (resetForStart s) with
      | none => none
      | some s2 => some (true, selectRandomTopic topicsData rT s2)

/-! ### GameManager.nextTurn -/

def nextTurn (topicsData : String → Option (List TopicValue)) (rD rT : Nat)
    (s : GameSession) : Option GameSession :=
  (selectNextDrawer rD s).map (selectRandomTopic topicsData rT)

/-! ### GameManager.updateSettings

`Object.assign(session.settings, settings)` merges the defined fields of a
`Partial<GameSettings>` patch; the patch is modelled as one `Option` per
field.  The source checks only that the caller is the host — it never
inspects `gameState`. -/

structure SettingsPatch where
  maxRounds : Option Nat
  correctAnswerPoints : Option Nat
  drawerPoints : Option Nat
  selectedThemes : Option (List String)
  timeLimit : Option Nat
  maxPlayers : Option Nat
  deriving Repr, DecidableEq

def mergeSettings (base : GameSettings) (p : SettingsPatch) : GameSettings :=
  { maxRounds := p.maxRounds.getD base.maxRounds,
    correctAnswerPoints := p.correctAnswerPoints.getD base.correctAnswerPoints,
    drawerPoints := p.drawerPoints.getD base.drawerPoints,
    selectedThemes := p.selectedThemes.getD base.selectedThemes,
    timeLimit := p.timeLimit.getD base.timeLimit,
    maxPlayers := p.maxPlayers.getD base.maxPlayers }

def updateSettings (s : GameSession) (playerId : String) (patch : SettingsPatch) :
    Bool × GameSession :=
  match s.players.find? (fun p => p.id == playerId) with
  | none => (false, s)
  | some player =>
    if player.isHost then
      (true, { s with settings := mergeSettings s.settings patch })
    else
      (false, s)

/-! ### GameManager.joinSession (Firebase variant, with the maxPlayers check)

`session.password && session.password !== password`: the first conjunct is
JavaScript truthiness (absent or empty-string password means no password
required), modelled by `strTruthy`. -/

def strTruthy : Option String → Bool
  | none => false
  | some v => !(v == "")

inductive JoinError where
  | wrongPassword
  | gameInProgress
  | sessionFull
  | nameTaken
  deriving Repr, DecidableEq

/-- The fresh player object appended by a successful join. -/
def joinedPlayer (newId playerName : String) : Player :=
  { id := newId, name := playerName, score := 0, isReady := false, isHost := false }

def joinSession (s : GameSession) (newId playerName : String)
    (password : Option String) : Except JoinError (GameSession × Player) :=
  if strTruthy s.password = true ∧ password ≠ s.password then
    Except.error JoinError.wrongPassword
  else if s.gameState = GameState.playing then
    Except.error JoinError.gameInProgress
  else if s.settings.maxPlayers ≤ s.players.length then
    Except.error JoinError.sessionFull
  else if (s.players.find? (fun p => p.name == playerName)).isSome then
    Except.error JoinError.nameTaken
  else
    Except.ok ({ s with players := s.players ++ [joinedPlayer newId playerName] },
      joinedPlayer newId playerName)

/-! ### GameManager.leaveSession

`findIndex` + `splice` removes the first player with the given id; if the
roster becomes empty the session is deleted; otherwise, if the removed player
was host, `players[0].isHost = true` promotes the first remaining player. -/

inductive LeaveResult where
  | notFound
  | deleted
  | remaining (s : GameSession)
  deriving Repr, DecidableEq

def removeFirst (pid : String) : List Player → Option (Player × List Player)
  | [] => none
  | p :: rest =>
    if p.id == pid then some (p, rest)
    else
      match removeFirst pid rest with
      | none => none
      | some (q, rest2) => some (q, p :: rest2)

def promoteFirst : List Player → List Player
  | [] => []
  | p :: rest => { p with isHost := true } :: rest

/-- What `leaveSession` does once the player object and the spliced roster
are in hand: delete on empty roster, else promote `players[0]` when the
removed player was host. -/
def leaveStep (s : GameSession) (player : Player) (rest : List Player) : LeaveResult :=
  if rest.length = 0 then LeaveResult.deleted
  else
    LeaveResult.remaining
      { s with players := if player.isHost then promoteFirst rest else rest }

def leaveSession (s : GameSession) (playerId : String) : LeaveResult :=
  match removeFirst playerId s.players with
  | none => LeaveResult.notFound
  | some (player, rest) => leaveStep s player rest

/-! ### Sample data for concrete evaluations -/

def sampleSettings : GameSettings :=
  { maxRounds := 2, correctAnswerPoints := 10, drawerPoints := 5,
    selectedThemes := ["animals"], timeLimit := 60, maxPlayers := 8 }

def alice : Player :=
  { id := "a", name := "Alice", score := 0, isReady := true, isHost := true }

def bob : Player :=
  { id := "b", name := "Bob", score := 0, isReady := true, isHost := false }

def carol : Player :=
  { id := "c", name := "Carol", score := 0, isReady := true, isHost := false }

def catTopic : TopicValue :=
  { displayName := "cat", answerNames := ["cat", "neko"] }

/-- A mid-game session: Alice (host) is the current drawer of round 1. -/
def playingSession : GameSession :=
  { id := "s1", name := "lobby", password := none,
    players := [alice, bob, carol],
    currentDrawer := some "a", currentTopic := some catTopic,
    gameState := GameState.playing, settings := sampleSettings,
    round := 1, turn := 1, usedDrawers := ["a"] }

/-- A finished session in which `currentTopic` is still set (`endGame` never
clears it). -/
def finishedSession : GameSession :=
  { playingSession with gameState := GameState.finished }

/-- A mid-game session in which every player has already drawn in round 1 and
`round + 1 ≤ maxRounds`, so the next drawer selection must roll over. -/
def rolloverSession : GameSession :=
  { playingSession with usedDrawers := ["a", "b", "c"] }

/-- Like `rolloverSession` but in the last round, so the next drawer
selection must end the game. -/
def lastRoundSession : GameSession :=
  { playingSession with usedDrawers := ["a", "b", "c"], round := 2 }

/-- A lobby: everyone ready, game not yet started. -/
def waitingReady : GameSession :=
  { playingSession with gameState := GameState.waiting,
                        currentDrawer := none, currentTopic := none,
                        usedDrawers := ([] : List String) }

/-- A concrete topic table: the `topics.json` lookup restricted to one theme. -/
def sampleTopics : String → Option (List TopicValue) :=
  fun theme => if theme == "animals" then some [catTopic] else none

def bumpRoundsPatch : SettingsPatch :=
  { maxRounds := some 5, correctAnswerPoints := none, drawerPoints := none,
    selectedThemes := none, timeLimit := none, maxPlayers := none }

/-- The score of the first roster entry with the given id (`find?` models the
`players.find(p => p.id === pid)` lookup used throughout the source). -/
def findScore (pid : String) (ps : List Player) : Option Nat :=
  (ps.find? (fun p => p.id == pid)).map Player.score

/-! ### C1 -/

/-- C1: REFUTED on the code — the claim says the `gameState=playing`
invariant (`currentDrawer ∈ players` and `currentTopic` set) holds after
every operation, including `leaveSession` removing the current drawer.  But
`leaveSession` never touches `currentDrawer`: when the current drawer "a"
leaves `playingSession`, the surviving session is still `playing` with
`currentDrawer = some "a"` while no player with id "a" remains. -/
theorem C1_leaveSession_breaks_drawer_invariant :
    leaveSession playingSession "a" =
      LeaveResult.remaining
        { playingSession with players := [{ bob with isHost := true }, carol] } ∧
    ({ playingSession with
        players := [{ bob with isHost := true }, carol] }).gameState =
      GameState.playing ∧
    ({ playingSession with
        players := [{ bob with isHost := true }, carol] }).currentDrawer = some "a" ∧
    ([{ bob with isHost := true }, carol].all (fun p => !(p.id == "a"))) = true := by
  decide

/-! ### C10 -/

/-- C10: REFUTED on the code — on round rollover with `round + 1 ≤ maxRounds`
(here round 1 → 2 with `maxRounds = 2`), `selectNextDrawer` clears
`usedDrawers` but indexes the stale, empty `availableDrawers` list computed
before the clear, so `availableDrawers[...]` is `undefined` and the `.id`
access throws (modelled as `none`) instead of assigning a drawer. -/
theorem C10_selectNextDrawer_rollover_crash :
    selectNextDrawer 0 rolloverSession = none ∧
    rolloverSession.round + 1 ≤ rolloverSession.settings.maxRounds := by
  decide

/-! ### C2 -/

/-- C2 counterexample: the claim says `checkAnswer` awards no points whenever
`gameState ≠ playing`.  But `checkAnswer` never inspects `gameState`: on
`finishedSession` (gameState = finished, `currentTopic` still set) the guess
"cat" is declared correct and Bob's score rises from 0 to 10. -/
theorem C2_counterexample_points_when_finished :
    finishedSession.gameState ≠ GameState.playing ∧
    (checkAnswer finishedSession "b" "cat").1.isCorrect = true ∧
    ((checkAnswer finishedSession "b" "cat").2.players.find?
        (fun p => p.id == "b")).map Player.score = some 10 ∧
    (finishedSession.players.find? (fun p => p.id == "b")).map Player.score =
      some 0 := by
  decide

/-- C2 (amended): `checkAnswer` awards no points and returns
`isCorrect = false`, leaving the session unchanged, whenever no
`currentTopic` is set; it does not itself check `gameState` (that guard
lives in the caller `addChatMessage`). -/
theorem C2_no_topic_no_points (s : GameSession) (pid ans : String)
    (h : s.currentTopic = none) :
    checkAnswer s pid ans = (⟨false, none⟩, s) := by
  unfold checkAnswer
  rw [h]

/-- C2 witness: the amended theorem applied to a concrete topic-less session. -/
theorem C2_no_topic_no_points_witness :
    checkAnswer { playingSession with currentTopic := none } "b" "cat" =
      (⟨false, none⟩, { playingSession with currentTopic := none }) :=
  C2_no_topic_no_points { playingSession with currentTopic := none } "b" "cat" rfl

/-! ### C3 -/

/-- C3 counterexample: the claim says `updateSettings` is rejected whenever
`gameState = playing`.  But the code only checks that the caller is host:
on the mid-game `playingSession` the host's patch succeeds and changes
`maxRounds` from 2 to 5. -/
theorem C3_counterexample_settings_changed_mid_game :
    playingSession.gameState = GameState.playing ∧
    (updateSettings playingSession "a" bumpRoundsPatch).1 = true ∧
    (updateSettings playingSession "a" bumpRoundsPatch).2.settings.maxRounds = 5 ∧
    playingSession.settings.maxRounds = 2 := by
  decide

/-- C3 (amended): `updateSettings` succeeds exactly when the caller is found
in the roster with `isHost = true`, regardless of `gameState`; on success the
patch is merged into `settings` and nothing else changes; on failure the
session is unchanged. -/
theorem C3_updateSettings_host_only (s : GameSession) (pid : String)
    (patch : SettingsPatch) :
    (updateSettings s pid patch).1 =
      (((s.players.find? (fun p => p.id == pid)).map Player.isHost).getD false) ∧
    (updateSettings s pid patch).2 =
      (if ((s.players.find? (fun p => p.id == pid)).map Player.isHost).getD false
       then { s with settings := mergeSettings s.settings patch }
       else s) := by
  unfold updateSettings
  cases h : s.players.find? (fun p => p.id == pid) with
  | none => simp
  | some player =>
    by_cases hh : player.isHost <;> simp [hh]

/-! ### C4 -/

theorem pickDrawer_isSome (available : List Player) (r : Nat) (s : GameSession)
    (h : available.length ≠ 0) : (pickDrawer available r s).isSome = true := by
  have hlt : drawerIndex r available.length < available.length := by
    unfold drawerIndex
    rw [if_neg h]
    exact Nat.mod_lt _ (Nat.pos_of_ne_zero h)
  unfold pickDrawer
  rw [List.get?_eq_get hlt]
  rfl

/-- With an empty `usedDrawers` and a non-empty roster, drawer selection skips
the rollover branch and picks among all players. -/
theorem selectNextDrawer_fresh (r : Nat) (s : GameSession)
    (hused : s.usedDrawers = []) (hlen : s.players.length ≠ 0) :
    selectNextDrawer r s = pickDrawer s.players r s ∧
    (selectNextDrawer r s).isSome = true := by
  have hav : availableDrawers s = s.players := by
    unfold availableDrawers
    rw [hused]
    simp
  unfold selectNextDrawer
  rw [hav, if_neg hlen]
  exact ⟨rfl, pickDrawer_isSome _ _ _ hlen⟩

/-- C4: `startGame` fails and leaves the session unchanged when the caller is
not the (found) host, when some player is not ready, or when there are fewer
than 2 players; on success it sets `gameState = playing`, resets
`round = 1, turn = 1, usedDrawers = ∅`, and then performs drawer selection
(which succeeds) and topic selection on the reset session. -/
theorem C4_startGame_guard_and_reset (td : String → Option (List TopicValue))
    (rD rT : Nat) (s : GameSession) (hostId : String) :
    ((((s.players.find? (fun p => p.id == hostId)).map Player.isHost).getD false = false ∨
        s.players.all (fun p => p.isReady) = false ∨ s.players.length < 2) →
      startGame td rD rT s hostId = some (false, s)) ∧
    (((s.players.find? (fun p => p.id == hostId)).map Player.isHost).getD false = true →
      s.players.all (fun p => p.isReady) = true → 2 ≤ s.players.length →
      (selectNextDrawer rD (resetForStart s)).isSome = true ∧
      startGame td rD rT s hostId =
        (selectNextDrawer rD (resetForStart s)).map
          (fun s2 => (true, selectRandomTopic td rT s2))) := by
  constructor
  · intro h
    unfold startGame
    cases hf : s.players.find? (fun p => p.id == hostId) with
    | none => rfl
    | some host =>
      rw [hf] at h
      simp only [Option.map_some', Option.getD_some] at h
      by_cases hh : host.isHost = true
      · have hcond : s.players.all (fun p => p.isReady) = false ∨ s.players.length < 2 := by
          rcases h with h | h | h
          · rw [h] at hh
            cases hh
          · exact Or.inl h
          · exact Or.inr h
        simp [hh, hcond]
        intro h1 h2
        rcases hcond with hc | hc
        · have hT : (s.players.all fun p => p.isReady) = true := by
            simpa using h1
          rw [hT] at hc
          cases hc
        · omega
      · have hh' : host.isHost = false := by
          cases hb : host.isHost
          · rfl
          · exact absurd hb hh
        simp [hh']
  · intro hhost hall hlen
    unfold startGame
    cases hf : s.players.find? (fun p => p.id == hostId) with
    | none =>
      rw [hf] at hhost
      simp at hhost
    | some host =>
      rw [hf] at hhost
      simp only [Option.map_some', Option.getD_some] at hhost
      have hnlt : ¬ s.players.length < 2 := not_lt.mpr hlen
      have hlen' : (resetForStart s).players.length ≠ 0 := by
        show s.players.length ≠ 0
        omega
      have hsel := selectNextDrawer_fresh rD (resetForStart s) rfl hlen'
      refine ⟨hsel.2, ?_⟩
      simp only [hhost, hall, hnlt]
      simp only [Bool.true_eq_false, false_or, or_false, if_false]
      cases hsd : selectNextDrawer rD (resetForStart s) with
      | none => simp [hsd]
      | some s2 => simp [hsd]

/-- C4 witness: in the all-ready 3-player lobby the host "a" starts the game;
the reset session's drawer selection is defined and `startGame` follows it
with topic selection. -/
theorem C4_startGame_witness :
    (selectNextDrawer 0 (resetForStart waitingReady)).isSome = true ∧
    startGame sampleTopics 0 0 waitingReady "a" =
      (selectNextDrawer 0 (resetForStart waitingReady)).map
        (fun s2 => (true, selectRandomTopic sampleTopics 0 s2)) :=
  (C4_startGame_guard_and_reset sampleTopics 0 0 waitingReady "a").2
    (by decide) (by decide) (by decide)

/-! ### C6 -/

/-- C6: `joinSession` (the Firebase variant, which carries the `maxPlayers`
check) fails with the wrong-password error when a password is set (truthy)
and mismatched; otherwise with the game-in-progress error while `playing`;
otherwise with the session-full error once the roster has reached
`maxPlayers`; otherwise with the name-taken error when the name is already
present (case-sensitive); otherwise it appends exactly one new player with
`isHost = false`, `isReady = false`, score 0, leaving the existing roster
unchanged. -/
theorem C6_joinSession_guards_and_append (s : GameSession)
    (newId playerName : String) (password : Option String) :
    (strTruthy s.password = true ∧ password ≠ s.password →
      joinSession s newId playerName password = Except.error JoinError.wrongPassword) ∧
    (¬(strTruthy s.password = true ∧ password ≠ s.password) →
      (s.gameState = GameState.playing →
        joinSession s newId playerName password = Except.error JoinError.gameInProgress) ∧
      (s.gameState ≠ GameState.playing →
        (s.settings.maxPlayers ≤ s.players.length →
          joinSession s newId playerName password = Except.error JoinError.sessionFull) ∧
        (¬ s.settings.maxPlayers ≤ s.players.length →
          ((s.players.find? (fun p => p.name == playerName)).isSome = true →
            joinSession s newId playerName password = Except.error JoinError.nameTaken) ∧
          ((s.players.find? (fun p => p.name == playerName)).isSome = false →
            joinSession s newId playerName password =
              Except.ok
                ({ s with players := s.players ++ [joinedPlayer newId playerName] },
                  joinedPlayer newId playerName))))) := by
  unfold joinSession
  constructor
  · intro h
    rw [if_pos h]
  · intro h
    rw [if_neg h]
    constructor
    · intro hp
      rw [if_pos hp]
    · intro hp
      rw [if_neg hp]
      constructor
      · intro hfull
        rw [if_pos hfull]
      · intro hfull
        rw [if_neg hfull]
        constructor
        · intro hname
          rw [if_pos hname]
        · intro hname
          rw [if_neg (by simp [hname])]

/-- C6 witness: "Dave" joins the 3-player lobby (no password, waiting,
3 < 8 = maxPlayers, name fresh) and is appended as a non-host non-ready
player with score 0. -/
theorem C6_joinSession_witness :
    joinSession waitingReady "d" "Dave" none =
      Except.ok
        ({ waitingReady with players := waitingReady.players ++ [joinedPlayer "d" "Dave"] },
          joinedPlayer "d" "Dave") := by
  have h := (C6_joinSession_guards_and_append waitingReady "d" "Dave" none).2 (by decide)
  exact ((h.2 (by decide)).2 (by decide)).2 (by decide)

/-! ### C7 -/

theorem removeFirst_split (pid : String) (l1 l2 : List Player) (p : Player)
    (hp : p.id = pid) (h1 : l1.all (fun q => !(q.id == pid)) = true) :
    removeFirst pid (l1 ++ p :: l2) = some (p, l1 ++ l2) := by
  induction l1 with
  | nil =>
    simp [removeFirst, hp]
  | cons q l ih =>
    simp only [List.all_cons, Bool.and_eq_true] at h1
    have hq : (q.id == pid) = false := by
      rcases h1 with ⟨hq, _⟩
      cases hqe : (q.id == pid)
      · rfl
      · rw [hqe] at hq
        cases hq
    simp [removeFirst, hq, ih h1.2]

theorem countP_promoteFirst (m : List Player) (hm : m ≠ [])
    (h0 : List.countP (fun q => q.isHost) m = 0) :
    List.countP (fun q => q.isHost) (promoteFirst m) = 1 := by
  cases m with
  | nil => cases hm rfl
  | cons q rest =>
    rw [List.countP_cons] at h0
    have hrest : List.countP (fun q => q.isHost) rest = 0 := by omega
    simp [promoteFirst, List.countP_cons, hrest]

theorem promoteFirst_all_not_id (m : List Player) (pid : String)
    (h : m.all (fun q => !(q.id == pid)) = true) :
    (promoteFirst m).all (fun q => !(q.id == pid)) = true := by
  cases m with
  | nil => rfl
  | cons q rest => simpa [promoteFirst] using h

/-- C7: for a roster `l1 ++ p :: l2` in which only `p` carries the leaver's
id and exactly one player is host, `leaveSession` removes exactly `p`; if the
roster becomes empty the session is deleted; otherwise the result keeps the
other players in order (promoting the first to host exactly when `p` was
host), the leaver's id occurs nowhere, and exactly one host remains. -/
theorem C7_leaveSession_removes_and_rehosts (s : GameSession) (pid : String)
    (l1 l2 : List Player) (p : Player)
    (hsplit : s.players = l1 ++ p :: l2) (hp : p.id = pid)
    (h1 : l1.all (fun q => !(q.id == pid)) = true)
    (h2 : l2.all (fun q => !(q.id == pid)) = true)
    (hhost : List.countP (fun q => q.isHost) s.players = 1) :
    (l1 ++ l2 = [] → leaveSession s pid = LeaveResult.deleted) ∧
    (l1 ++ l2 ≠ [] →
      leaveSession s pid = LeaveResult.remaining
        { s with players := if p.isHost then promoteFirst (l1 ++ l2) else l1 ++ l2 } ∧
      ((if p.isHost then promoteFirst (l1 ++ l2) else l1 ++ l2).all
        (fun q => !(q.id == pid))) = true ∧
      List.countP (fun q => q.isHost)
        (if p.isHost then promoteFirst (l1 ++ l2) else l1 ++ l2) = 1) := by
  have hrm : removeFirst pid s.players = some (p, l1 ++ l2) := by
    rw [hsplit]
    exact removeFirst_split pid l1 l2 p hp h1
  have hall : (l1 ++ l2).all (fun q => !(q.id == pid)) = true := by
    simp only [List.all_append, Bool.and_eq_true]
    exact ⟨h1, h2⟩
  have hstep : leaveSession s pid = leaveStep s p (l1 ++ l2) := by
    unfold leaveSession
    rw [hrm]
  constructor
  · intro hnil
    rw [hstep, hnil]
    rfl
  · intro hne
    have hlen : ¬ (l1 ++ l2).length = 0 := by
      simpa [List.length_eq_zero] using hne
    rw [hstep]
    unfold leaveStep
    rw [if_neg hlen]
    refine ⟨rfl, ?_, ?_⟩
    · by_cases hph : p.isHost
      · rw [if_pos hph]
        exact promoteFirst_all_not_id _ _ hall
      · rw [if_neg hph]
        exact hall
    · rw [hsplit, List.countP_append, List.countP_cons] at hhost
      by_cases hph : p.isHost
      · rw [if_pos hph]
        have h0 : List.countP (fun q => q.isHost) (l1 ++ l2) = 0 := by
          simp only [hph, if_true] at hhost
          rw [List.countP_append]
          omega
        exact countP_promoteFirst _ hne h0
      · rw [if_neg hph]
        rw [List.countP_append]
        simp only [Bool.not_eq_true] at hph
        simp only [hph, Bool.false_eq_true, if_false] at hhost
        omega

/-- C7 witness: host Alice leaves the 3-player lobby; Bob (first remaining)
is promoted, Alice's id is gone, and exactly one host remains. -/
theorem C7_leaveSession_witness :
    leaveSession waitingReady "a" =
      LeaveResult.remaining { waitingReady with players := promoteFirst ([bob] ++ [carol]) } ∧
    ((promoteFirst ([bob] ++ [carol])).all (fun q => !(q.id == "a"))) = true ∧
    List.countP (fun q => q.isHost) (promoteFirst ([bob] ++ [carol])) = 1 := by
  have h := (C7_leaveSession_removes_and_rehosts waitingReady "a" [] ([bob] ++ [carol])
    alice rfl rfl (by decide) (by decide) (by decide)).2 (by decide)
  refine ⟨h.1.trans (by decide), ?_, ?_⟩
  · exact (by decide : ((if alice.isHost then promoteFirst ([] ++ ([bob] ++ [carol]))
      else [] ++ ([bob] ++ [carol])).all (fun q => !(q.id == "a"))) = true)
  · exact (by decide : List.countP (fun q => q.isHost)
      (promoteFirst ([bob] ++ [carol])) = 1)

/-! ### C5 -/

theorem find?_updateFirst_self (pid : String) (f : Player → Player)
    (hfid : ∀ p, (f p).id = p.id) (ps : List Player) :
    (updateFirst pid f ps).find? (fun p => p.id == pid) =
      (ps.find? (fun p => p.id == pid)).map f := by
  induction ps with
  | nil => simp [updateFirst]
  | cons p rest ih =>
    by_cases h : p.id = pid
    · have hb : (p.id == pid) = true := beq_iff_eq.mpr h
      rw [updateFirst, if_pos hb]
      simp [List.find?, hfid p, hb]
    · have hb : (p.id == pid) = false := beq_eq_false_iff_ne.mpr h
      rw [updateFirst, if_neg (by simp [hb])]
      simp [List.find?, hb, ih]

theorem find?_updateFirst_other (pid qid : String) (hne : qid ≠ pid)
    (f : Player → Player) (hfid : ∀ p, (f p).id = p.id) (ps : List Player) :
    (updateFirst pid f ps).find? (fun p => p.id == qid) =
      ps.find? (fun p => p.id == qid) := by
  induction ps with
  | nil => simp [updateFirst]
  | cons p rest ih =>
    by_cases h : p.id = pid
    · have hb : (p.id == pid) = true := beq_iff_eq.mpr h
      have hq : (p.id == qid) = false := by
        rw [h]
        exact beq_eq_false_iff_ne.mpr (Ne.symm hne)
      rw [updateFirst, if_pos hb]
      simp [List.find?, hfid p, hq]
    · have hb : (p.id == pid) = false := beq_eq_false_iff_ne.mpr h
      rw [updateFirst, if_neg (by simp [hb])]
      by_cases h2 : p.id = qid
      · have hq : (p.id == qid) = true := beq_iff_eq.mpr h2
        simp [List.find?, hq]
      · have hq : (p.id == qid) = false := beq_eq_false_iff_ne.mpr h2
        simp [List.find?, hq, ih]

theorem findScore_addScore_self (pid : String) (pts : Nat) (ps : List Player) :
    findScore pid (addScore pid pts ps) = (findScore pid ps).map (fun v => v + pts) := by
  unfold findScore addScore
  rw [find?_updateFirst_self pid (fun p => { p with score := p.score + pts })
    (fun p => rfl) ps]
  cases ps.find? (fun p => p.id == pid) <;> rfl

theorem findScore_addScore_other (pid qid : String) (hne : qid ≠ pid)
    (pts : Nat) (ps : List Player) :
    findScore qid (addScore pid pts ps) = findScore qid ps := by
  unfold findScore addScore
  rw [find?_updateFirst_other pid qid hne (fun p => { p with score := p.score + pts })
    (fun p => rfl) ps]

/-- On a correct answer with a set `currentDrawer` distinct from the guesser,
the guesser's (first-occurrence) score gains `correctAnswerPoints` and the
drawer's gains `drawerPoints`. -/
theorem scoreCorrect_scores (s : GameSession) (pid did : String)
    (hdid : s.currentDrawer = some did) (hne : pid ≠ did) :
    findScore pid (scoreCorrect s pid) =
      (findScore pid s.players).map (fun v => v + s.settings.correctAnswerPoints) ∧
    findScore did (scoreCorrect s pid) =
      (findScore did s.players).map (fun v => v + s.settings.drawerPoints) := by
  unfold scoreCorrect
  rw [hdid]
  simp only [addDrawerScore]
  constructor
  · rw [findScore_addScore_other did pid hne]
    exact findScore_addScore_self pid s.settings.correctAnswerPoints s.players
  · rw [findScore_addScore_self did s.settings.drawerPoints]
    rw [findScore_addScore_other pid did (Ne.symm hne)]

theorem checkAnswer_correct_eq (s : GameSession) (topic : TopicValue) (pid ans : String)
    (ht : s.currentTopic = some topic) (hc : answerIsCorrect topic ans = true) :
    checkAnswer s pid ans =
      (⟨true, topic.answerNames.head?⟩, { s with players := scoreCorrect s pid }) := by
  unfold checkAnswer
  rw [ht]
  show checkAnswerTopic s pid ans topic = _
  unfold checkAnswerTopic
  rw [if_pos hc, ht]

theorem checkAnswer_incorrect_eq (s : GameSession) (topic : TopicValue) (pid ans : String)
    (ht : s.currentTopic = some topic) (hc : answerIsCorrect topic ans = false) :
    checkAnswer s pid ans = (⟨false, none⟩, s) := by
  unfold checkAnswer
  rw [ht]
  show checkAnswerTopic s pid ans topic = _
  unfold checkAnswerTopic
  rw [if_neg (by simp [hc])]

/-- C5: with a `currentTopic` set, `checkAnswer` declares the guess correct
iff the trim-and-case-fold-normalized guess and some case-fold-normalized
accepted answer name contain one another (`answerIsCorrect` is exactly that
containment test); an incorrect guess changes nothing; a correct guess
returns the first accepted name as `correctAnswer`, adds
`correctAnswerPoints` to the guesser's score and `drawerPoints` to the
current drawer's. -/
theorem C5_checkAnswer_match_and_scoring (s : GameSession) (topic : TopicValue)
    (pid ans : String) (ht : s.currentTopic = some topic) :
    (checkAnswer s pid ans).1.isCorrect = answerIsCorrect topic ans ∧
    (answerIsCorrect topic ans = false → checkAnswer s pid ans = (⟨false, none⟩, s)) ∧
    (answerIsCorrect topic ans = true →
      (checkAnswer s pid ans).1.correctAnswer = topic.answerNames.head? ∧
      ∀ did, s.currentDrawer = some did → pid ≠ did →
        findScore pid (checkAnswer s pid ans).2.players =
          (findScore pid s.players).map (fun v => v + s.settings.correctAnswerPoints) ∧
        findScore did (checkAnswer s pid ans).2.players =
          (findScore did s.players).map (fun v => v + s.settings.drawerPoints)) := by
  refine ⟨?_, ?_, ?_⟩
  · cases hc : answerIsCorrect topic ans
    · rw [checkAnswer_incorrect_eq s topic pid ans ht hc]
    · rw [checkAnswer_correct_eq s topic pid ans ht hc]
  · intro hc
    exact checkAnswer_incorrect_eq s topic pid ans ht hc
  · intro hc
    rw [checkAnswer_correct_eq s topic pid ans ht hc]
    exact ⟨rfl, fun did hdid hne => scoreCorrect_scores s pid did hdid hne⟩

/-- C5 witness: on the mid-game session, Bob guesses " CAT" (normalized to
"cat"), which matches the accepted name "cat": the first accepted name is
returned and the scores become Bob 0+10, drawer Alice 0+5. -/
theorem C5_checkAnswer_witness :
    (checkAnswer playingSession "b" " CAT").1.correctAnswer = some "cat" ∧
    findScore "b" (checkAnswer playingSession "b" " CAT").2.players = some 10 ∧
    findScore "a" (checkAnswer playingSession "b" " CAT").2.players = some 5 := by
  have h := (C5_checkAnswer_match_and_scoring playingSession catTopic "b" " CAT" rfl).2.2
    (by decide)
  have h2 := h.2 "a" rfl (by decide)
  refine ⟨h.1, ?_, ?_⟩
  · rw [h2.1]
    decide
  · rw [h2.2]
    decide

/-! ### C9 -/

theorem toLower_ws (c : Char) (h : isJsWhitespace c = true) : c.toLower = c := by
  unfold isJsWhitespace at h
  simp only [Bool.or_eq_true, beq_iff_eq] at h
  rcases h with (((((h | h) | h) | h) | h) | h) <;> subst h <;> decide

theorem map_toLower_ws (l : List Char) (h : ∀ c ∈ l, isJsWhitespace c = true) :
    l.map Char.toLower = l := by
  induction l with
  | nil => rfl
  | cons c t ih =>
    rw [List.map_cons]
    rw [toLower_ws c (h c (by simp))]
    rw [ih (fun d hd => h d (by simp [hd]))]

theorem jsTrimList_all_ws (l : List Char) (h : ∀ c ∈ l, isJsWhitespace c = true) :
    jsTrimList l = [] := by
  have h1 : l.dropWhile isJsWhitespace = [] := by
    rw [List.dropWhile_eq_nil_iff]
    exact h
  unfold jsTrimList
  rw [h1]
  rfl

theorem normalized_ws_empty (ans : String) (h : ∀ c ∈ ans.data, isJsWhitespace c = true) :
    jsTrim (jsToLower ans) = "" := by
  unfold jsTrim jsToLower
  show String.mk (jsTrimList (ans.data.map Char.toLower)) = ""
  rw [map_toLower_ws ans.data h, jsTrimList_all_ws ans.data h]

theorem isSubstrList_nil (hay : List Char) : isSubstrList [] hay = true := by
  cases hay <;> simp [isSubstrList, isPrefixList]

/-- Any guess consisting only of whitespace normalizes to the empty string,
which every accepted answer name contains. -/
theorem answerIsCorrect_of_ws (topic : TopicValue) (ans : String)
    (hne : topic.answerNames ≠ []) (h : ∀ c ∈ ans.data, isJsWhitespace c = true) :
    answerIsCorrect topic ans = true := by
  unfold answerIsCorrect
  rw [normalized_ws_empty ans h]
  cases ht : topic.answerNames with
  | nil => exact absurd ht hne
  | cons a rest =>
    simp only [List.any_cons, Bool.or_eq_true]
    left
    left
    show isSubstrList (String.data "") (jsToLower a).data = true
    exact isSubstrList_nil _

/-- C9: with a `currentTopic` whose accepted-name list is non-empty, any
guess that is empty or all-whitespace trims to the empty string and is
declared correct by the containment rule, so the guesser gains
`correctAnswerPoints` and the current drawer gains `drawerPoints`. -/
theorem C9_whitespace_guess_scores (s : GameSession) (topic : TopicValue)
    (pid ans : String) (ht : s.currentTopic = some topic)
    (hne : topic.answerNames ≠ [])
    (hws : ∀ c ∈ ans.data, isJsWhitespace c = true) :
    (checkAnswer s pid ans).1.isCorrect = true ∧
    (∀ did, s.currentDrawer = some did → pid ≠ did →
      findScore pid (checkAnswer s pid ans).2.players =
        (findScore pid s.players).map (fun v => v + s.settings.correctAnswerPoints) ∧
      findScore did (checkAnswer s pid ans).2.players =
        (findScore did s.players).map (fun v => v + s.settings.drawerPoints)) := by
  have hc := answerIsCorrect_of_ws topic ans hne hws
  rw [checkAnswer_correct_eq s topic pid ans ht hc]
  exact ⟨rfl, fun did hdid hne2 => scoreCorrect_scores s pid did hdid hne2⟩

/-- C9 witness: Bob "guesses" three spaces mid-game; it is scored as correct
and the points flow to Bob and to drawer Alice. -/
theorem C9_whitespace_witness :
    (checkAnswer playingSession "b" "   ").1.isCorrect = true ∧
    findScore "b" (checkAnswer playingSession "b" "   ").2.players = some 10 ∧
    findScore "a" (checkAnswer playingSession "b" "   ").2.players = some 5 := by
  have h := C9_whitespace_guess_scores playingSession catTopic "b" "   " rfl
    (by decide) (by decide)
  have h2 := h.2 "a" rfl (by decide)
  refine ⟨h.1, ?_, ?_⟩
  · rw [h2.1]
    decide
  · rw [h2.2]
    decide

/-! ### C8 -/

theorem pickDrawer_round (available : List Player) (r : Nat) (t s' : GameSession)
    (h : pickDrawer available r t = some s') : s'.round = t.round := by
  unfold pickDrawer at h
  rw [Option.map_eq_some'] at h
  obtain ⟨d, -, hd⟩ := h
  rw [← hd]

theorem selectNextDrawer_round_mono (r : Nat) (s s' : GameSession)
    (h : selectNextDrawer r s = some s') : s.round ≤ s'.round := by
  unfold selectNextDrawer at h
  by_cases h0 : (availableDrawers s).length = 0
  · rw [if_pos h0] at h
    by_cases h1 : s.settings.maxRounds < s.round + 1
    · rw [if_pos h1] at h
      rw [← Option.some.inj h]
      show s.round ≤ s.round + 1
      omega
    · rw [if_neg h1] at h
      rw [pickDrawer_round _ _ _ _ h]
      show s.round ≤ s.round + 1
      omega
  · rw [if_neg h0] at h
    rw [pickDrawer_round _ _ _ _ h]

theorem selectRandomTopic_round (td : String → Option (List TopicValue))
    (r : Nat) (t : GameSession) : (selectRandomTopic td r t).round = t.round := by
  unfold selectRandomTopic
  by_cases h : (collectTopics td t.settings.selectedThemes).length = 0
  · rw [if_pos h]
  · rw [if_neg h]
    cases hg : (collectTopics td t.settings.selectedThemes).get?
        (r % (collectTopics td t.settings.selectedThemes).length) with
    | none => rfl
    | some tv => rfl

theorem checkAnswer_round (s : GameSession) (pid ans : String) :
    (checkAnswer s pid ans).2.round = s.round := by
  unfold checkAnswer
  cases ht : s.currentTopic with
  | none => rfl
  | some topic =>
    show (checkAnswerTopic s pid ans topic).2.round = s.round
    unfold checkAnswerTopic
    by_cases hc : answerIsCorrect topic ans = true
    · rw [if_pos hc]
    · rw [if_neg hc]

theorem leaveSession_remaining_round (s : GameSession) (pid : String) (s' : GameSession)
    (h : leaveSession s pid = LeaveResult.remaining s') : s'.round = s.round := by
  unfold leaveSession at h
  cases hrm : removeFirst pid s.players with
  | none =>
    rw [hrm] at h
    exact LeaveResult.noConfusion h
  | some pr =>
    rw [hrm] at h
    obtain ⟨player, rest⟩ := pr
    have h2 : leaveStep s player rest = LeaveResult.remaining s' := h
    unfold leaveStep at h2
    by_cases hl : rest.length = 0
    · rw [if_pos hl] at h2
      exact LeaveResult.noConfusion h2
    · rw [if_neg hl] at h2
      rw [← LeaveResult.remaining.inj h2]

theorem toggleReady_round (s : GameSession) (pid : String) :
    (toggleReady s pid).2.round = s.round := by
  unfold toggleReady
  cases hf : s.players.find? (fun p => p.id == pid) with
  | none => rfl
  | some p => rfl

theorem updateSettings_round (s : GameSession) (pid : String) (patch : SettingsPatch) :
    (updateSettings s pid patch).2.round = s.round := by
  unfold updateSettings
  cases hf : s.players.find? (fun p => p.id == pid) with
  | none => rfl
  | some player =>
    show ((if player.isHost = true
      then (true, { s with settings := mergeSettings s.settings patch })
      else (false, s)) : Bool × GameSession).2.round = s.round
    by_cases hb : player.isHost = true
    · rw [if_pos hb]
    · rw [if_neg hb]

theorem joinSession_ok_round (s : GameSession) (newId playerName : String)
    (password : Option String) (s' : GameSession) (p : Player)
    (h : joinSession s newId playerName password = Except.ok (s', p)) :
    s'.round = s.round := by
  unfold joinSession at h
  split_ifs at h
  have h1 : ({ s with players := s.players ++ [joinedPlayer newId playerName] } :
      GameSession) = s' := congrArg Prod.fst (Except.ok.inj h)
  rw [← h1]

theorem endGame_players_not_ready (t : GameSession) :
    ((endGame t).players.all (fun p => !p.isReady)) = true := by
  unfold endGame
  rw [List.all_map]
  simp [Function.comp]

/-- C8: within a game `round` never decreases — drawer selection and
`nextTurn` only grow it, and `checkAnswer`, `leaveSession`, `toggleReady`,
`updateSettings`, `endGame` and (successful) `joinSession` leave it
untouched; and when drawer selection rolls the round past
`settings.maxRounds` it deterministically ends the game: `gameState`
becomes `finished`, every player's `isReady` is reset, and no new drawer is
selected (`currentDrawer` is unchanged). -/
theorem C8_round_monotone_and_finish (td : String → Option (List TopicValue))
    (rD rT : Nat) (s : GameSession) (pid ans newId playerName : String)
    (password : Option String) (patch : SettingsPatch) :
    (∀ s', selectNextDrawer rD s = some s' → s.round ≤ s'.round) ∧
    (∀ s', nextTurn td rD rT s = some s' → s.round ≤ s'.round) ∧
    ((checkAnswer s pid ans).2.round = s.round) ∧
    (∀ s', leaveSession s pid = LeaveResult.remaining s' → s'.round = s.round) ∧
    ((toggleReady s pid).2.round = s.round) ∧
    ((updateSettings s pid patch).2.round = s.round) ∧
    ((endGame s).round = s.round) ∧
    (∀ s' p, joinSession s newId playerName password = Except.ok (s', p) →
      s'.round = s.round) ∧
    ((availableDrawers s).length = 0 → s.settings.maxRounds < s.round + 1 →
      selectNextDrawer rD s = some (endGame (rollRound s)) ∧
      (endGame (rollRound s)).gameState = GameState.finished ∧
      ((endGame (rollRound s)).players.all (fun p => !p.isReady)) = true ∧
      (endGame (rollRound s)).currentDrawer = s.currentDrawer) := by
  refine ⟨fun s' h => selectNextDrawer_round_mono rD s s' h, ?_, checkAnswer_round s pid ans,
    fun s' h => leaveSession_remaining_round s pid s' h, toggleReady_round s pid,
    updateSettings_round s pid patch, rfl,
    fun s' p h => joinSession_ok_round s newId playerName password s' p h, ?_⟩
  · intro s' h
    unfold nextTurn at h
    rw [Option.map_eq_some'] at h
    obtain ⟨s2, h2, hmap⟩ := h
    have := selectNextDrawer_round_mono rD s s2 h2
    rw [← hmap, selectRandomTopic_round]
    exact this
  · intro h0 h1
    refine ⟨?_, rfl, endGame_players_not_ready (rollRound s), rfl⟩
    unfold selectNextDrawer
    rw [if_pos h0, if_pos h1]

/-- C8 witness: in the final round with every player already a past drawer,
the next drawer selection finishes the game instead of picking a drawer. -/
theorem C8_finish_witness :
    selectNextDrawer 0 lastRoundSession = some (endGame (rollRound lastRoundSession)) ∧
    (endGame (rollRound lastRoundSession)).gameState = GameState.finished := by
  have h := (C8_round_monotone_and_finish sampleTopics 0 0 lastRoundSession
    "x" "y" "z" "w" none bumpRoundsPatch).2.2.2.2.2.2.2.2 (by decide) (by decide)
  exact ⟨h.1, h.2.1⟩

end Egokoro
